import Mathlib

/-!
Shallow embedding of `src/controls/node.rs` from the wgsl-shaderlab
node-graph editor.  The file models the `NodeWidget` data type, its
constructor, label accessor, the `ToString` rendering of `NodeId`, and the
element tree built by `NodeWidget::widget`, and proves the specified
properties about them.  Types that live in repository modules not present
under `src/` (`Port`, `Pending`, `PortId`, `pad::State`, the node-kind
descriptor) are modelled from the spec, as marked on each definition.
-/

namespace Shaderlab

/-- Screen point (`iced_winit::Point`); the source stores `f32` coordinates,
modelled as integers since no claim computes with them. -/
structure Point where
  x : Int
  y : Int
deriving DecidableEq, Repr

/-- Modelled from the spec: `TypeTag` (the node-kind module `crate::node` is
not under `src/`) is an opaque equality-comparable type marker provided by the
node-kind descriptor. -/
abbrev TypeTag := Nat

/-- Modelled from the spec: `pad::State` (`crate::widget::pad` is not under
`src/`), the per-pad interaction bookkeeping; `Default::default()` is the
empty state. -/
structure PadState where
  pressed : Bool
deriving DecidableEq, Repr

instance : Inhabited PadState := ⟨⟨false⟩⟩

/-- The slotmap key `NodeId` (`crate::node::NodeId`).  `data` is the 64-bit
value `slotmap::Key::data(self).as_ffi()`: low 32 bits are the slot index,
high 32 bits the generation/version. -/
structure NodeId where
  data : Nat
  isLt : data < 2 ^ 64
deriving DecidableEq

/-- Source `impl ToString for NodeId` (src/controls/node.rs, lines 15-22):
split the ffi value into the masked low 32 bits and the shifted high 32 bits,
force the version odd with `| 1`, truncate both to `u32` (the `as u32` casts),
and render the index, a literal `v`, and the version in decimal. -/
def NodeId.to_string (id : NodeId) : String :=
  let value := id.data
  let idx := (value &&& 0xffffffff) % 2 ^ 32
  let version := ((value >>> 32) ||| 1) % 2 ^ 32
  Nat.repr idx ++ "v" ++ Nat.repr version

/-- Port index within a node's per-direction port list (`PortId(usize)` from
`src/controls/edge.rs`; constructed in node.rs as `PortId(index)`). -/
structure PortId where
  idx : Nat
deriving DecidableEq, Repr

/-- Direction of a pending-edge origin port. -/
inductive Direction where
  | input
  | output
deriving DecidableEq, Repr

/-- Modelled from the spec: `Pending` (`src/controls/edge.rs` is not under
`src/`) is the in-progress connection gesture state: the origin port identity
(owner node and positional index) together with the origin direction. -/
structure Pending where
  node : NodeId
  port : PortId
  direction : Direction
deriving DecidableEq

/-- Constructor used for input ports (`Pending::input`). -/
def Pending.input (node : NodeId) (port : PortId) : Pending :=
  { node := node, port := port, direction := Direction.input }

/-- Constructor used for output ports (`Pending::output`). -/
def Pending.output (node : NodeId) (port : PortId) : Pending :=
  { node := node, port := port, direction := Direction.output }

/-- Modelled from the spec: `Port` (`src/controls/port.rs` is not under
`src/`) is a declared name plus `TypeTag`, with runtime (pad) state. -/
structure Port where
  name : String
  ty : TypeTag
  state : PadState
deriving DecidableEq, Repr

/-- Modelled from the spec: `Port::new(name, ty)` builds a port with empty
runtime state. -/
def Port.new (name : String) (ty : TypeTag) : Port :=
  { name := name, ty := ty, state := default }

/-- Modelled from the spec: the opaque boxed payload `Box<dyn DynMessage>` of
a node kind's own messages; the core never inspects it, so any
equality-comparable carrier works. -/
abbrev DynMessage := Nat

/-- The `Message` enum of src/controls/node.rs (lines 24-35). -/
inductive Message where
  | Dynamic (id : NodeId) (msg : DynMessage)
  | Remove (id : NodeId)
  | DragStart (id : NodeId)
  | DragMove (p : Point)
  | DragEnd (id : NodeId)
  | StartEdge (p : Pending)
  | CancelEdge
deriving DecidableEq

mutual

/-- Shallow model of the `iced` element trees built in src/controls/node.rs:
text, spacer, rule, pad (with optional press/release messages), row, column,
container.  Pure layout attributes (width, padding, alignment, font size,
style) are dropped: no claim mentions them. -/
inductive Element (M : Type) where
  | text (label : String) : Element M
  | space : Element M
  | rule : Element M
  | pad (state : PadState) (on_press on_release : Option M) (content : Element M) : Element M
  | row (children : Children M) : Element M
  | column (children : Children M) : Element M
  | container (content : Element M) : Element M

/-- Children of a row/column, accumulated by repeated `push` exactly as the
source builds them. -/
inductive Children (M : Type) where
  | nil : Children M
  | push (front : Children M) (last : Element M) : Children M

end

mutual

/-- The `.map` combinator on elements (iced's `Element::map`): rewrap every
message produced anywhere in the tree, leaving the structure untouched. -/
def Element.map {M N : Type} (f : M → N) : Element M → Element N
  | .text s => .text s
  | .space => .space
  | .rule => .rule
  | .pad st op orel e => .pad st (op.map f) (orel.map f) (Element.map f e)
  | .row cs => .row (Children.map f cs)
  | .column cs => .column (Children.map f cs)
  | .container e => .container (Element.map f e)

/-- Children version of `Element.map`. -/
def Children.map {M N : Type} (f : M → N) : Children M → Children N
  | .nil => .nil
  | .push cs e => .push (Children.map f cs) (Element.map f e)

end

mutual

/-- All messages a tree can emit through its pads, in tree order (press
message before release message). -/
def Element.messages {M : Type} : Element M → List M
  | .text _ => []
  | .space => []
  | .rule => []
  | .pad _ op orel e => op.toList ++ orel.toList ++ Element.messages e
  | .row cs => Children.messages cs
  | .column cs => Children.messages cs
  | .container e => Element.messages e

/-- Children version of `Element.messages`. -/
def Children.messages {M : Type} : Children M → List M
  | .nil => []
  | .push cs e => Children.messages cs ++ Element.messages e

end

/-- Modelled from the spec: the node-kind descriptor (`crate::node` is not
under `src/`): a label, the declared inputs and outputs as ordered
(name, TypeTag) lists, and a width layout hint. -/
structure Desc where
  label : String
  inputs : List (String × TypeTag)
  outputs : List (String × TypeTag)
  width : Nat

/-- Modelled from the spec: a pluggable node kind
(`Box<dyn crate::node::Node>`): a descriptor fixed for the node's lifetime
plus an opaque view whose messages are `DynMessage`s. -/
structure NodeKind where
  desc : Desc
  view : NodeId → Element DynMessage

/-- The `NodeWidget` struct of src/controls/node.rs (lines 37-49). -/
structure NodeWidget where
  id : NodeId
  position : Point
  inputs : List Port
  outputs : List Port
  node : NodeKind
  title_state : PadState
  close : PadState
  drag : PadState

/-- Source `NodeWidget::new` (src/controls/node.rs, lines 52-73): derive the
input and output port lists by mapping each declared (name, type) pair, in
order, to `Port::new`; all pad states start at their default. -/
def NodeWidget.new (id : NodeId) (position : Point) (node : NodeKind) : NodeWidget :=
  let desc := node.desc
  { id := id
    position := position
    inputs := desc.inputs.map fun nt => Port.new nt.1 nt.2
    outputs := desc.outputs.map fun nt => Port.new nt.1 nt.2
    node := node
    title_state := default
    close := default
    drag := default }

/-- Source `NodeWidget::label` (src/controls/node.rs, lines 75-77). -/
def NodeWidget.label (w : NodeWidget) : String :=
  w.node.desc.label

/-- Modelled from the spec: `Port::view` (`src/controls/port.rs` is not under
`src/`).  The port renders its name inside a pad that starts the edge gesture,
carrying the supplied pending-edge origin; it does not change the port itself
(the spec fixes port lists at node-creation time).  State-passing mirrors the
`&mut self` receiver of the source call `state.view(...)`. -/
def Port.view (p : Port) (pending : Pending) : Port × Element Message :=
  (p, Element.pad p.state (some (Message.StartEdge pending)) none (Element.text p.name))

/-- Source `grap_pad` (src/controls/node.rs, lines 96-106): a pad that emits
`Message::DragStart(node)` on press and `Message::DragEnd(node)` on
release. -/
def grap_pad (node : NodeId) (state : PadState) (content : Element Message) : Element Message :=
  Element.pad state (some (Message.DragStart node)) (some (Message.DragEnd node)) content

/-- The enumerate-and-fold loop inside `create_ports` (src/controls/node.rs,
lines 116-124): push each port's view, indexed from `i`, onto the accumulated
column children, threading the `&mut` ports through. -/
def create_ports_fold (node : NodeId) (pending : NodeId → PortId → Pending) : Nat → List Port → Children Message → List Port × Children Message
  | _, [], acc => ([], acc)
  | i, p :: rest, acc =>
    let pe := Port.view p (pending node (PortId.mk i))
    let tail' := create_ports_fold node pending (i + 1) rest (acc.push pe.2)
    (pe.1 :: tail'.1, tail'.2)

/-- Source `create_ports` (src/controls/node.rs, lines 108-127): an empty port
list renders as an empty `Space`; otherwise a column of the ports' views, each
given the pending-edge origin for its positional index. -/
def create_ports (node : NodeId) (ports : List Port) (pending : NodeId → PortId → Pending) : List Port × Element Message :=
  if ports.isEmpty then
    (ports, Element.space)
  else
    let r := create_ports_fold node pending 0 ports Children.nil
    (r.1, Element.column r.2)

/-- Source `NodeWidget::widget` (src/controls/node.rs, lines 79-165), in
state-passing form for the `&mut self` receiver: returns the updated widget
together with the built element tree.  The column pushes, in order, the title
row (grab pad plus close pad), the horizontal rule, the io row (inputs then
outputs), and the node kind's own view mapped into `Message::Dynamic`. -/
def NodeWidget.widget (w : NodeWidget) : NodeWidget × Element Message :=
  let node := w.id
  let title :=
    let t := grap_pad w.id w.title_state (Element.text w.node.desc.label)
    let close := Element.pad w.close none (some (Message.Remove w.id)) (Element.text "×")
    Element.row ((Children.nil.push t).push close)
  let ins := create_ports node w.inputs Pending.input
  let outs := create_ports node w.outputs Pending.output
  let ioRow := Element.row ((Children.nil.push ins.2).push outs.2)
  let kindView := Element.map (fun m => Message.Dynamic node m) (w.node.view node)
  ({ w with inputs := ins.1, outputs := outs.1 },
    Element.container (Element.column ((((Children.nil.push title).push Element.rule).push ioRow).push kindView)))

/-- Decompose a built widget tree into its four column entries (title row,
rule, io row, kind view), when it has that shape. -/
def widgetParts (w : NodeWidget) : Option (Element Message × Element Message × Element Message × Element Message) :=
  match (NodeWidget.widget w).2 with
  | .container (.column (.push (.push (.push (.push .nil t) r) ports) k)) => some (t, r, ports, k)
  | _ => none

/-- The pending-edge origins a tree can emit: the payloads of its
`Message::StartEdge` messages, in tree order. -/
def Element.pendings (e : Element Message) : List Pending :=
  e.messages.filterMap fun m =>
    match m with
    | Message.StartEdge p => some p
    | _ => none

/-- The fold inside `create_ports` hands the threaded ports back unchanged. -/
theorem create_ports_fold_fst (node : NodeId) (pending : NodeId → PortId → Pending) :
    ∀ (i : Nat) (ports : List Port) (acc : Children Message),
      (create_ports_fold node pending i ports acc).1 = ports := by
  intro i ports
  induction ports generalizing i with
  | nil => intro acc; rfl
  | cons p rest ih => intro acc; simp [create_ports_fold, Port.view, ih]

/-- Messages of the column built by the `create_ports` fold: the accumulator's
messages followed by one `StartEdge` per port, indexed consecutively. -/
theorem create_ports_fold_messages (node : NodeId) (pending : NodeId → PortId → Pending) :
    ∀ (i : Nat) (ports : List Port) (acc : Children Message),
      (create_ports_fold node pending i ports acc).2.messages
        = acc.messages ++ (List.range' i ports.length).map
            (fun j => Message.StartEdge (pending node (PortId.mk j))) := by
  intro i ports
  induction ports generalizing i with
  | nil => intro acc; simp [create_ports_fold, List.range']
  | cons p rest ih =>
      intro acc
      simp [create_ports_fold, Port.view, ih, Children.messages, Element.messages,
        List.range'_succ, Option.toList]

mutual

/-- Mapping messages commutes with collecting them (element version). -/
theorem element_messages_map {M N : Type} (f : M → N) : (e : Element M) →
    (Element.map f e).messages = e.messages.map f
  | .text s => rfl
  | .space => rfl
  | .rule => rfl
  | .pad st op orel e => by
      cases op <;> cases orel <;>
        simp [Element.map, Element.messages, element_messages_map f e, Option.toList]
  | .row cs => by simp [Element.map, Element.messages, children_messages_map f cs]
  | .column cs => by simp [Element.map, Element.messages, children_messages_map f cs]
  | .container e => by simp [Element.map, Element.messages, element_messages_map f e]

/-- Mapping messages commutes with collecting them (children version). -/
theorem children_messages_map {M N : Type} (f : M → N) : (cs : Children M) →
    (Children.map f cs).messages = cs.messages.map f
  | .nil => rfl
  | .push cs e => by
      simp [Children.map, Children.messages, children_messages_map f cs,
        element_messages_map f e]

end

/-- Setting the lowest bit makes any natural number odd. -/
theorem lor_one_mod_two (x : Nat) : (x ||| 1) % 2 = 1 := by
  rw [Nat.mod_two_eq_one_iff_testBit_zero]
  simp [Nat.testBit_or]

/-- Closed form of `NodeId.to_string`: the low 32 bits, a literal `v`, and the
high 32 bits with the lowest bit forced; the `u32` truncations are no-ops. -/
theorem NodeId.to_string_eq (id : NodeId) :
    id.to_string
      = Nat.repr (id.data % 2 ^ 32) ++ "v" ++ Nat.repr ((id.data / 2 ^ 32) ||| 1) := by
  have h1 : id.data &&& 0xffffffff = id.data % 2 ^ 32 := by
    have h := Nat.and_pow_two_sub_one_eq_mod id.data 32
    norm_num at h ⊢
    exact h
  have h2 : id.data >>> 32 = id.data / 2 ^ 32 := Nat.shiftRight_eq_div_pow id.data 32
  have hlt : id.data / 2 ^ 32 < 2 ^ 32 := by
    have := id.isLt
    rw [Nat.div_lt_iff_lt_mul (by norm_num : 0 < 2 ^ 32)]
    norm_num
    omega
  have h3 : (id.data / 2 ^ 32) ||| 1 < 2 ^ 32 :=
    Nat.or_lt_two_pow hlt (by norm_num)
  simp only [NodeId.to_string, h1, h2, Nat.mod_mod_of_dvd id.data (dvd_refl (2 ^ 32)),
    Nat.mod_eq_of_lt h3]

/-- The `create_ports` pass hands the port list back unchanged. -/
theorem create_ports_fst (node : NodeId) (ports : List Port) (pending : NodeId → PortId → Pending) :
    (create_ports node ports pending).1 = ports := by
  unfold create_ports
  cases hp : ports.isEmpty <;> simp [hp, create_ports_fold_fst]

/-- The element built by `create_ports` emits exactly one `StartEdge` message
per port, in positional order starting from index 0. -/
theorem create_ports_messages (node : NodeId) (ports : List Port) (pending : NodeId → PortId → Pending) :
    (create_ports node ports pending).2.messages
      = (List.range ports.length).map
          (fun j => Message.StartEdge (pending node (PortId.mk j))) := by
  unfold create_ports
  cases hp : ports.isEmpty with
  | true =>
      have h : ports = [] := List.isEmpty_iff.mp hp
      subst h
      simp [Element.messages]
  | false =>
      simp [hp, Element.messages, create_ports_fold_messages, Children.messages,
        List.range_eq_range']

/-- Explicit shape of the element tree built by `NodeWidget::widget`. -/
theorem widget_snd (w : NodeWidget) :
    (NodeWidget.widget w).2
      = Element.container (Element.column
          ((((Children.nil.push
                (Element.row ((Children.nil.push
                    (grap_pad w.id w.title_state (Element.text w.node.desc.label))).push
                  (Element.pad w.close none (some (Message.Remove w.id)) (Element.text "×"))))).push
              Element.rule).push
            (Element.row ((Children.nil.push
                (create_ports w.id w.inputs Pending.input).2).push
              (create_ports w.id w.outputs Pending.output).2))).push
          (Element.map (fun m => Message.Dynamic w.id m) (w.node.view w.id)))) := rfl

/-- The widget tree decomposes into title row, rule, io row and kind view. -/
theorem widgetParts_eq (w : NodeWidget) :
    widgetParts w
      = some (Element.row ((Children.nil.push
            (grap_pad w.id w.title_state (Element.text w.node.desc.label))).push
          (Element.pad w.close none (some (Message.Remove w.id)) (Element.text "×"))),
        Element.rule,
        Element.row ((Children.nil.push
            (create_ports w.id w.inputs Pending.input).2).push
          (create_ports w.id w.outputs Pending.output).2),
        Element.map (fun m => Message.Dynamic w.id m) (w.node.view w.id)) := rfl

/-- Extracting `StartEdge` payloads from a list of `StartEdge` messages
recovers the underlying pendings. -/
theorem pendings_of_startEdge_map {α : Type} (f : α → Pending) (l : List α) :
    List.filterMap
      ((fun m => match m with | Message.StartEdge p => some p | _ => none) ∘
        fun a => Message.StartEdge (f a)) l = l.map f := by
  induction l <;> simp_all [Function.comp]

/-- A list of `Dynamic` messages contributes no `StartEdge` payloads. -/
theorem pendings_of_dynamic_map (id : NodeId) (l : List DynMessage) :
    List.filterMap
      ((fun m => match m with | Message.StartEdge p => some p | _ => none) ∘
        fun m => Message.Dynamic id m) l = [] := by
  induction l <;> simp_all [Function.comp]

/-- C1: constructing a node via `NodeWidget::new` derives its input and output
port lists by mapping each declared (name, TypeTag) pair of the descriptor, in
declared order, to a `Port`; the resulting lists have the same length and
order as the declared lists, with matching names and type tags. -/
theorem c1_new_derives_ports (id : NodeId) (pos : Point) (k : NodeKind) :
    (NodeWidget.new id pos k).inputs = k.desc.inputs.map (fun nt => Port.new nt.1 nt.2)
    ∧ (NodeWidget.new id pos k).outputs = k.desc.outputs.map (fun nt => Port.new nt.1 nt.2)
    ∧ (NodeWidget.new id pos k).inputs.length = k.desc.inputs.length
    ∧ (NodeWidget.new id pos k).outputs.length = k.desc.outputs.length
    ∧ List.Forall₂ (fun (p : Port) (nt : String × TypeTag) => p.name = nt.1 ∧ p.ty = nt.2)
        (NodeWidget.new id pos k).inputs k.desc.inputs
    ∧ List.Forall₂ (fun (p : Port) (nt : String × TypeTag) => p.name = nt.1 ∧ p.ty = nt.2)
        (NodeWidget.new id pos k).outputs k.desc.outputs := by
  refine ⟨rfl, rfl, by simp [NodeWidget.new], by simp [NodeWidget.new], ?_, ?_⟩
  · show List.Forall₂ _ (k.desc.inputs.map fun nt => Port.new nt.1 nt.2) k.desc.inputs
    rw [List.forall₂_map_left_iff]
    exact List.forall₂_same.mpr fun a _ => ⟨rfl, rfl⟩
  · show List.Forall₂ _ (k.desc.outputs.map fun nt => Port.new nt.1 nt.2) k.desc.outputs
    rw [List.forall₂_map_left_iff]
    exact List.forall₂_same.mpr fun a _ => ⟨rfl, rfl⟩

/-- C2: the textual rendering of every `NodeId` has the form
index, `v`, version, where the index is the low 32 bits of the key data and
the version is the high 32 bits with the lowest bit forced by `| 1`; the
version component is odd for every possible `NodeId`. -/
theorem c2_to_string_form (id : NodeId) :
    ∃ idx ver : Nat,
      id.to_string = Nat.repr idx ++ "v" ++ Nat.repr ver
      ∧ idx = id.data % 2 ^ 32
      ∧ ver = (id.data / 2 ^ 32) ||| 1
      ∧ ver % 2 = 1 :=
  ⟨id.data % 2 ^ 32, (id.data / 2 ^ 32) ||| 1,
    NodeId.to_string_eq id, rfl, rfl, lor_one_mod_two _⟩

/-- C3: port derivation is total and never fails: a descriptor with zero
declared inputs and outputs still constructs a node, the derived port lists
are empty, and rendering an empty port list yields the empty `Space`
placeholder rather than an error. -/
theorem c3_empty_ports_ok (id : NodeId) (pos : Point) (k : NodeKind) (n : NodeId)
    (pending : NodeId → PortId → Pending)
    (hin : k.desc.inputs = []) (hout : k.desc.outputs = []) :
    (NodeWidget.new id pos k).inputs = []
    ∧ (NodeWidget.new id pos k).outputs = []
    ∧ create_ports n [] pending = ([], Element.space) := by
  refine ⟨?_, ?_, rfl⟩
  · simp [NodeWidget.new, hin]
  · simp [NodeWidget.new, hout]

/-- Witness for C3: a concrete node kind with no declared ports builds a node
with empty port lists, and its empty list renders as the `Space`
placeholder. -/
theorem c3_empty_ports_ok_witness :
    (NodeWidget.new ⟨0, by norm_num⟩ ⟨0, 0⟩
        { desc := { label := "k", inputs := [], outputs := [], width := 10 },
          view := fun _ => Element.space }).inputs = []
    ∧ (NodeWidget.new ⟨0, by norm_num⟩ ⟨0, 0⟩
        { desc := { label := "k", inputs := [], outputs := [], width := 10 },
          view := fun _ => Element.space }).outputs = []
    ∧ create_ports ⟨0, by norm_num⟩ [] Pending.input = ([], Element.space) :=
  c3_empty_ports_ok ⟨0, by norm_num⟩ ⟨0, 0⟩
    { desc := { label := "k", inputs := [], outputs := [], width := 10 },
      view := fun _ => Element.space }
    ⟨0, by norm_num⟩ Pending.input rfl rfl

/-- C4: every port in a node's rendered view carries a pending-edge origin
with the owning node's id, the port's positional index within its direction's
list, and the correct direction: the i-th input port gets
`Pending::input(id, PortId(i))` and the i-th output port gets
`Pending::output(id, PortId(i))`, so both directions may originate the edge
gesture. -/
theorem c4_pendings (w : NodeWidget) :
    Element.pendings (NodeWidget.widget w).2
      = ((List.range w.inputs.length).map fun i => Pending.input w.id (PortId.mk i))
        ++ ((List.range w.outputs.length).map fun i => Pending.output w.id (PortId.mk i))
    ∧ (∀ n p, Pending.input n p = { node := n, port := p, direction := Direction.input }
        ∧ Pending.output n p = { node := n, port := p, direction := Direction.output }) := by
  refine ⟨?_, fun n p => ⟨rfl, rfl⟩⟩
  rw [widget_snd]
  unfold Element.pendings
  simp [Element.messages, Children.messages, grap_pad, Option.toList,
    create_ports_messages, element_messages_map, List.filterMap_append,
    pendings_of_startEdge_map, pendings_of_dynamic_map]

/-- C5: the node kind's own view enters the widget tree wrapped by
`Element::map` with `Message::Dynamic` paired with the owning node's id, and
the wrapped subtree's messages are exactly the kind's own messages, each
wrapped untouched. -/
theorem c5_dynamic_wrap (w : NodeWidget) :
    (∃ t r ports, widgetParts w
        = some (t, r, ports, Element.map (fun m => Message.Dynamic w.id m) (w.node.view w.id)))
    ∧ Element.messages (Element.map (fun m => Message.Dynamic w.id m) (w.node.view w.id))
        = (Element.messages (w.node.view w.id)).map (fun m => Message.Dynamic w.id m) :=
  ⟨⟨_, _, _, widgetParts_eq w⟩, element_messages_map _ _⟩

/-- C6: only the node's title/drag region starts a node drag: the title pad is
a `grap_pad` whose press message is `DragStart` with the node's own id and
whose release message is `DragEnd` with the same id, every message of the port
region is a pending-edge `StartEdge` message, and neither the port region nor
the node's body (the mapped kind view) emits any `DragStart` or `DragEnd`. -/
theorem c6_title_drag (w : NodeWidget) :
    ∃ ioRow kv,
      widgetParts w
        = some (Element.row ((Children.nil.push
              (grap_pad w.id w.title_state (Element.text w.node.desc.label))).push
            (Element.pad w.close none (some (Message.Remove w.id)) (Element.text "×"))),
          Element.rule, ioRow, kv)
      ∧ grap_pad w.id w.title_state (Element.text w.node.desc.label)
          = Element.pad w.title_state (some (Message.DragStart w.id))
              (some (Message.DragEnd w.id)) (Element.text w.node.desc.label)
      ∧ (∀ m ∈ Element.messages ioRow, ∃ p, m = Message.StartEdge p)
      ∧ (∀ m ∈ Element.messages ioRow ++ Element.messages kv,
          ∀ j, m ≠ Message.DragStart j ∧ m ≠ Message.DragEnd j) := by
  refine ⟨_, _, widgetParts_eq w, rfl, ?_, ?_⟩
  · intro m hm
    simp only [Element.messages, Children.messages, create_ports_messages,
      List.nil_append, List.mem_append, List.mem_map, List.mem_range] at hm
    rcases hm with ⟨j, _, h⟩ | ⟨j, _, h⟩ <;> exact ⟨_, h.symm⟩
  · intro m hm
    simp only [Element.messages, Children.messages, create_ports_messages,
      element_messages_map, List.nil_append, List.mem_append, List.mem_map,
      List.mem_range] at hm
    rcases hm with (⟨j, _, h⟩ | ⟨j, _, h⟩) | ⟨d, _, h⟩ <;> subst h <;>
      exact fun j => ⟨fun hc => Message.noConfusion hc, fun hc => Message.noConfusion hc⟩

/-- C7: a node's label is exactly the label of its kind's descriptor. -/
theorem c7_label (id : NodeId) (pos : Point) (k : NodeKind) :
    (NodeWidget.new id pos k).label = k.desc.label := rfl

/-- C8: building the view leaves the node untouched: after `widget()` the
input and output port lists (hence their lengths, order, names and type tags)
and the node id are unchanged. -/
theorem c8_widget_frame (w : NodeWidget) :
    (NodeWidget.widget w).1.inputs = w.inputs
    ∧ (NodeWidget.widget w).1.outputs = w.outputs
    ∧ (NodeWidget.widget w).1.id = w.id := by
  refine ⟨?_, ?_, rfl⟩ <;> simp [NodeWidget.widget, create_ports_fst]

/-- C9: the textual rendering of `NodeId` is not injective: two distinct ids
sharing an index, whose generations 0 and 1 differ only in the lowest bit,
render to the same string. -/
theorem c9_to_string_not_injective :
    ∃ a b : NodeId,
      a ≠ b
      ∧ a.to_string = b.to_string
      ∧ a.data % 2 ^ 32 = b.data % 2 ^ 32
      ∧ b.data / 2 ^ 32 = a.data / 2 ^ 32 + 1
      ∧ (a.data / 2 ^ 32) % 2 = 0 := by
  refine ⟨⟨0, by norm_num⟩, ⟨2 ^ 32, by norm_num⟩, ?_, ?_, ?_, ?_, ?_⟩ <;> decide

/-- C10: the close region of the title row is a pad whose release message is
`Message::Remove` with the node's own id and whose press message is `none`,
so a press alone produces no remove message; its only message is the remove
on release. -/
theorem c10_close_remove (w : NodeWidget) :
    ∃ t ioRow kv,
      widgetParts w
        = some (Element.row ((Children.nil.push t).push
            (Element.pad w.close none (some (Message.Remove w.id)) (Element.text "×"))),
          Element.rule, ioRow, kv)
      ∧ Element.messages
          (Element.pad w.close (none : Option Message) (some (Message.Remove w.id))
            (Element.text "×"))
          = [Message.Remove w.id] := by
  refine ⟨_, _, _, widgetParts_eq w, ?_⟩
  simp [Element.messages, Option.toList]

end Shaderlab
